import Mathlib

/-!
Verification of the `sqlite-model` wrapper (src/sqlite-model.ts, src/sqlite-statement.ts).

The development shallowly embeds the wrapper's lifecycle and statement code.  The
asynchronous callback/promise code is embedded denotationally: a promise becomes an
`Except String α` (its settled outcome; all rejections in the source are strings built
with template literals), the sqlite3 native driver becomes an oracle record `DbEnv`
giving the outcome of each native callback, and where the spec makes temporal claims
(execution order, "no subsequent unit runs", "close is never attempted") the embedded
function additionally returns the trace of operations it started, in order.
-/

namespace SqliteModelVerif

/-! ## Generic list/string helpers (used only to state properties) -/

/-- `leadsWith needle hay`: `hay` starts with `needle`. -/
def leadsWith : List Char → List Char → Bool
  | [], _ => true
  | _ :: _, [] => false
  | a :: as, b :: bs => a == b && leadsWith as bs

/-- `occursIn needle hay`: `needle` occurs as a contiguous sublist of `hay`. -/
def occursIn (needle : List Char) : List Char → Bool
  | [] => needle.isEmpty
  | c :: t => leadsWith needle (c :: t) || occursIn needle t

/-- Number of positions of `hay` at which `needle` occurs. -/
def countOccur (needle : List Char) : List Char → Nat
  | [] => 0
  | c :: t => (if leadsWith needle (c :: t) then 1 else 0) + countOccur needle t

/-! ## The comment-stripping pass of `getSqlFromFile`

`getSqlFromFile` runs `content.replace(regex, '')` where the regex is `-- .*\n` with flags `g` and `m`.  In JavaScript `.` does not
match `\n`, so one match is: the three characters `-`, `-`, space, then the remaining
characters of that line, then the terminating newline (the newline is part of the match
and is removed).  A `-- ` with no later newline can never complete a match.  The global
replace scans the input left to right exactly once: after a match, scanning resumes at
the character following the removed newline; text already emitted is never rescanned.
`stripAux` reproduces this scan; the fuel argument (instantiated with the input length,
an upper bound on the number of steps) only makes the recursion structural. -/

/-- `markerTail l = some t` iff `l` begins with the three characters `-- `
(line-comment marker followed by the space required by the regex), `t` the rest. -/
def markerTail : List Char → Option (List Char)
  | a :: b :: c :: t => if a = '-' ∧ b = '-' ∧ c = ' ' then some t else none
  | _ => none

/-- Drop characters through the first newline; `none` when no newline occurs. -/
def dropLine : List Char → Option (List Char)
  | [] => none
  | c :: t => if c = '\n' then some t else dropLine t

/-- One left-to-right scan of the global replace of regex `-- .*\n` by the empty string. -/
def stripAux : Nat → List Char → List Char
  | 0, l => l
  | _ + 1, [] => []
  | fuel + 1, c :: rest =>
    match markerTail (c :: rest) with
    | some t =>
      match dropLine t with
      | some t' => stripAux fuel t'
      | none => c :: rest
    | none => c :: stripAux fuel rest

/-- The comment stripping performed by `getSqlFromFile`:
the global replace of regex `-- .*\n` by `''` (src/sqlite-model.ts, lines 157-172). -/
def stripComments (s : String) : String :=
  String.mk (stripAux s.data.length s.data)

/-- `hasMatch l`: the regex `-- .*\n` matches somewhere in `l`, i.e. some `-- `
is followed (on its own line) by a newline. -/
def hasMatch : List Char → Bool
  | [] => false
  | c :: rest =>
    match markerTail (c :: rest) with
    | some t => t.contains '\n'
    | none => hasMatch rest

/-- `hasMarker l`: the three-character sequence `-- ` occurs somewhere in `l`. -/
def hasMarker : List Char → Bool
  | [] => false
  | c :: rest => (markerTail (c :: rest)).isSome || hasMarker rest

/-! ### Helper lemmas about the stripping pass -/

theorem dropLine_eq_none {l : List Char} (h : dropLine l = none) : l.contains '\n' = false := by
  induction l with
  | nil => rfl
  | cons c t ih =>
    unfold dropLine at h
    by_cases hc : c = '\n'
    · simp [hc] at h
    · simp only [if_neg hc] at h
      have ht : '\n' ∉ t := by simpa using ih h
      have hc' : ¬ '\n' = c := fun hh => hc hh.symm
      simp [List.contains_cons, ht, hc']

theorem dropLine_append {mid post : List Char} (h : mid.contains '\n' = false) :
    dropLine (mid ++ '\n' :: post) = some post := by
  induction mid with
  | nil => simp [dropLine]
  | cons c t ih =>
    simp only [List.contains_cons] at h
    have hc : ¬ (c = '\n') := by
      intro hc
      simp [hc] at h
    have ht : t.contains '\n' = false := by
      rcases Bool.or_eq_false_iff.mp h with ⟨_, ht⟩
      exact ht
    simp [dropLine, hc, ih ht]

theorem dropLine_length {l t : List Char} (h : dropLine l = some t) :
    t.length < l.length := by
  induction l with
  | nil => simp [dropLine] at h
  | cons c rest ih =>
    unfold dropLine at h
    by_cases hc : c = '\n'
    · simp [hc] at h
      simp [← h]
    · simp only [if_neg hc] at h
      exact Nat.lt_trans (ih h) (by simp)

theorem markerTail_eq_some {l t : List Char} (h : markerTail l = some t) :
    l = '-' :: '-' :: ' ' :: t := by
  match l with
  | [] => simp [markerTail] at h
  | [a] => simp [markerTail] at h
  | [a, b] => simp [markerTail] at h
  | a :: b :: c :: r =>
    unfold markerTail at h
    by_cases hm : a = '-' ∧ b = '-' ∧ c = ' '
    · simp only [if_pos hm, Option.some.injEq] at h
      simp [hm.1, hm.2.1, hm.2.2, h]
    · simp [if_neg hm] at h

/-- The fuel only bounds the number of steps: any fuel at least the input length
gives the same result. -/
theorem stripAux_fuel : ∀ (f₁ f₂ : Nat) (l : List Char),
    l.length ≤ f₁ → l.length ≤ f₂ → stripAux f₁ l = stripAux f₂ l := by
  intro f₁
  induction f₁ with
  | zero =>
    intro f₂ l h₁ _
    have : l = [] := List.length_eq_zero.mp (Nat.le_zero.mp h₁)
    subst this
    cases f₂ <;> rfl
  | succ f ih =>
    intro f₂ l h₁ h₂
    cases l with
    | nil => cases f₂ <;> rfl
    | cons c rest =>
      cases f₂ with
      | zero => simp at h₂
      | succ g =>
        show stripAux (f + 1) (c :: rest) = stripAux (g + 1) (c :: rest)
        unfold stripAux
        cases hm : markerTail (c :: rest) with
        | none =>
          have hr₁ : rest.length ≤ f := by simpa using h₁
          have hr₂ : rest.length ≤ g := by simpa using h₂
          simp [ih g rest hr₁ hr₂]
        | some t =>
          cases hd : dropLine t with
          | none => simp [hd]
          | some t' =>
            have hlt : t'.length < t.length := dropLine_length hd
            have hct : (c :: rest) = '-' :: '-' :: ' ' :: t := markerTail_eq_some hm
            have hlen : t.length + 3 = (c :: rest).length := by
              rw [hct]; simp
            have h₁' : t'.length ≤ f := by
              have : t.length + 3 ≤ f + 1 := by rw [hlen]; exact h₁
              omega
            have h₂' : t'.length ≤ g := by
              have : t.length + 3 ≤ g + 1 := by rw [hlen]; exact h₂
              omega
            simp [hd, ih g t' h₁' h₂']

theorem dropLine_none_of_no_nl {l : List Char} (h : l.contains '\n' = false) :
    dropLine l = none := by
  induction l with
  | nil => rfl
  | cons c t ih =>
    simp only [List.contains_cons] at h
    rcases Bool.or_eq_false_iff.mp h with ⟨hc, ht⟩
    have hc' : ¬ (c = '\n') := by
      intro hh
      simp [hh] at hc
    simp [dropLine, hc', ih ht]

/-- Input containing no match of the comment regex is returned unchanged. -/
theorem stripAux_id : ∀ (fuel : Nat) (l : List Char),
    l.length ≤ fuel → hasMatch l = false → stripAux fuel l = l := by
  intro fuel
  induction fuel with
  | zero => intro l _ _; rfl
  | succ f ih =>
    intro l hlen hmatch
    cases l with
    | nil => rfl
    | cons c rest =>
      unfold stripAux
      unfold hasMatch at hmatch
      cases hm : markerTail (c :: rest) with
      | some t =>
        simp only [hm] at hmatch
        have : dropLine t = none := dropLine_none_of_no_nl hmatch
        simp [this]
      | none =>
        simp only [hm] at hmatch
        have hr : rest.length ≤ f := by simpa using hlen
        simp [ih rest hr hmatch]

/-- A marker-free nonempty block placed before `-- ` cannot create a marker at
the head of the concatenation. -/
theorem markerTail_append_none {c : Char} {pre zs : List Char}
    (h : hasMarker (c :: pre) = false) :
    markerTail (c :: (pre ++ '-' :: '-' :: ' ' :: zs)) = none := by
  cases pre with
  | nil => simp [markerTail]
  | cons b pre' =>
    cases pre' with
    | nil => simp [markerTail]
    | cons d rest' =>
      unfold hasMarker at h
      rcases Bool.or_eq_false_iff.mp h with ⟨hhead, _⟩
      have hmt : markerTail (c :: b :: d :: rest') = none := by
        cases hmm : markerTail (c :: b :: d :: rest') with
        | none => rfl
        | some _ => simp [hmm] at hhead
      have hcond : ¬ (c = '-' ∧ b = '-' ∧ d = ' ') := by
        intro hh
        unfold markerTail at hmt
        simp [hh] at hmt
      simp only [List.cons_append, markerTail, if_neg hcond]

/-- The heart of the single-pass replace: a comment segment `-- mid\n` that is the
first one (nothing before it contains the marker, `mid` has no newline) is removed
from marker through terminating newline inclusive; the text before it is kept and
scanning continues after the removed newline. -/
theorem stripAux_removes : ∀ (fuel : Nat) (pre mid post : List Char),
    (pre ++ '-' :: '-' :: ' ' :: (mid ++ '\n' :: post)).length ≤ fuel →
    hasMarker pre = false → mid.contains '\n' = false →
    stripAux fuel (pre ++ '-' :: '-' :: ' ' :: (mid ++ '\n' :: post)) =
      pre ++ stripAux post.length post := by
  intro fuel
  induction fuel with
  | zero =>
    intro pre mid post hlen _ _
    simp at hlen
  | succ f ih =>
    intro pre mid post hlen hpre hmid
    cases pre with
    | nil =>
      simp only [List.nil_append]
      conv_lhs => unfold stripAux
      have hmt : markerTail ('-' :: '-' :: ' ' :: (mid ++ '\n' :: post)) =
          some (mid ++ '\n' :: post) := by
        simp [markerTail]
      simp only [hmt, dropLine_append hmid]
      have hpost : post.length ≤ f := by
        simp at hlen
        omega
      exact stripAux_fuel f post.length post hpost (Nat.le_refl _)
    | cons c pre' =>
      simp only [List.cons_append]
      conv_lhs => unfold stripAux
      rw [markerTail_append_none hpre]
      have hpre' : hasMarker pre' = false := by
        unfold hasMarker at hpre
        exact (Bool.or_eq_false_iff.mp hpre).2
      have hlen' : (pre' ++ '-' :: '-' :: ' ' :: (mid ++ '\n' :: post)).length ≤ f := by
        simp at hlen ⊢
        omega
      simp [ih pre' mid post hlen' hpre' hmid]

/-- Settled promise outcomes are comparable (used only to evaluate concrete runs). -/
instance decEqExcept {e a : Type} [DecidableEq e] [DecidableEq a] :
    DecidableEq (Except e a) := fun x y =>
  match x, y with
  | .ok v, .ok w => decidable_of_iff (v = w) (by simp)
  | .error v, .error w => decidable_of_iff (v = w) (by simp)
  | .ok _, .error _ => isFalse (by intro h; cases h)
  | .error _, .ok _ => isFalse (by intro h; cases h)

/-! ## Data model (src/sqlite-model.ts, src/sqlite-statement.ts) -/

/-- A row of the internal bookkeeping table (interface `InternalTableRow`). -/
structure InternalTableRow where
  key : String
  value : String
deriving DecidableEq, Repr

/-- The driver's `sqlite3.RunResult` execution metadata (the `this` value passed to
statement callbacks). -/
structure RunResult where
  lastID : Int
  changes : Int
deriving DecidableEq, Repr

/-- The JavaScript values a driver callback can pass as its result argument, with
just enough structure to decide JavaScript truthiness. -/
inductive JsValue where
  | undef
  | jsNull
  | nan
  | num (n : Int)
  | str (s : String)
  | obj (id : Nat)
  | arr (id : Nat)
deriving DecidableEq, Repr

/-- JavaScript truthiness: `undefined`, `null`, `NaN`, `0`, and `''` are falsy;
every object or array (even empty) is truthy. -/
def truthy : JsValue → Bool
  | .undef => false
  | .jsNull => false
  | .nan => false
  | .num n => n != 0
  | .str s => s != ""
  | .obj _ => true
  | .arr _ => true

/-- A prepared statement handle (the promisified `SqliteStatement`), identified by
the SQL it was prepared from. -/
structure SqliteStatement where
  sql : String
deriving DecidableEq, Repr

/-- The model configuration (interface `SqliteModelOptions`), after the constructor
has merged in the defaults.  `queries` keeps JavaScript's own object-key order as an
association list, matching the `Object.keys(queries)` iteration in `prepareStmts`. -/
structure SqliteModelOptions where
  dbPath : String
  dbMode : Nat
  createDbSql : List String
  queries : List (String × String)
  verbose : Bool
  internalTable : String

/-- Oracle for the native sqlite3 driver and the filesystem: the outcome each native
callback would deliver.  `none` in an `Option String` field means the callback's
`error` argument was null (success); `some e` is the stringified native error. -/
structure DbEnv where
  /-- `new sqlite3.Database(path, mode, cb)`: the open callback's error. -/
  openError : Option String
  /-- `db.get(sql, params, cb)`: error, or the (absent) first row. -/
  dbGet : String → List String → Except String (Option InternalTableRow)
  /-- `db.exec(sql, cb)`: the exec callback's error. -/
  dbExec : String → Option String
  /-- `db.prepare(sql, cb)`: the prepare callback's error. -/
  dbPrepare : String → Option String
  /-- `stmt.finalize(cb)` for the statement prepared from the given SQL. -/
  dbFinalize : String → Option String
  /-- `db.close(cb)`: the close callback's error. -/
  dbCloseError : Option String
  /-- `existsSync(path)`. -/
  fileExists : String → Bool
  /-- `readFileSync(path).toString()`: the contents, or the thrown error. -/
  readFile : String → Except String String

/-! ## Statement adapter (src/sqlite-statement.ts) -/

/-- `promisifyStatementResult(stmt, method, field?)` (lines 77-106): the generic
handler rejects with the raw driver error; on success it resolves with
`{ result: this }`, adding `data[field] = r` only when both `field` and `r` are
truthy (`if (field && r)`).  Here `field` is the optionally configured field name,
`error`/`r` the values the driver passes to the callback, `this_` the `RunResult`
bound as `this`.  The resolved object is `⟨result, extra⟩` where `extra` is the
field entry if one was added. -/
structure StatementResultData where
  result : RunResult
  extra : Option (String × JsValue)
deriving DecidableEq, Repr

def promisifyStatementResult (field : Option String) (error : Option String)
    (this_ : RunResult) (r : JsValue) : Except String StatementResultData :=
  match error with
  | some e => .error e
  | none =>
    .ok { result := this_
          extra :=
            match field with
            | some f => if f ≠ "" ∧ truthy r then some (f, r) else none
            | none => none }

/-- Observable events of one promisified `each` call. -/
inductive EachEvent where
  | callbackInvoked (row : JsValue)
  | resolved (result : RunResult)
  | rejected (e : String)
deriving DecidableEq, Repr

/-- `promisifyStatementEach(stmt)` (src/sqlite-statement.ts, lines 108-131), as the
ordered trace of observable events of one call.  The native `stmt.each(params, cb,
handler)` invokes `cb(error, row)` once per result row in result-set order and then
`handler(error)`; `deliveries` is that ordered sequence of per-row callbacks and
`completion` the final one.  The wrapper's `cb` rejects on a row error and otherwise
invokes the user callback with the row; its `handler` rejects on error and otherwise
resolves with `{ result: this }`.  (The promise itself settles at the first
resolve/reject event of the trace.) -/
def promisifyStatementEach (deliveries : List (Except String JsValue))
    (completion : Except String RunResult) : List EachEvent :=
  deliveries.map (fun d =>
    match d with
    | .ok row => EachEvent.callbackInvoked row
    | .error e => EachEvent.rejected e) ++
  [match completion with
   | .ok res => EachEvent.resolved res
   | .error e => EachEvent.rejected e]

/-! ## Model lifecycle (src/sqlite-model.ts)

Methods that in the source read `this.ready.then(...)` take the settled readiness
outcome as an explicit first argument (suffix `R`); methods that do not mention
`this.ready` in the source also take it, but ignore it exactly as the source does,
so that the readiness-gating property can be stated uniformly over the public
surface. -/

/-- `execSql(sql)` (lines 139-150): runs `db.exec` and wraps the error. -/
def execSql (env : DbEnv) (sql : String) : Except String Unit :=
  match env.dbExec sql with
  | some e => .error ("Error while executing sql: " ++ sql ++ " (" ++ e ++ ")")
  | none => .ok ()

/-- `getSqlFromFile(file)` (lines 157-172): reads the file and strips comments;
a read error rejects with the wrapped error. -/
def getSqlFromFile (env : DbEnv) (file : String) : Except String String :=
  match env.readFile file with
  | .error e => .error ("Error while reading sql from " ++ file ++ " (" ++ e ++ ")")
  | .ok content => .ok (stripComments content)

/-- `prepareStmt(sql)` (lines 177-198): `db.prepare`; on failure rejects with
`Error preparing query ${sql} (${error})`, on success resolves with the
promisified statement object. -/
def prepareStmt (env : DbEnv) (sql : String) : Except String SqliteStatement :=
  match env.dbPrepare sql with
  | some e => .error ("Error preparing query " ++ sql ++ " (" ++ e ++ ")")
  | none => .ok ⟨sql⟩

/-- The catalog query of `isNew` (lines 233-246). -/
def checkSql (internalTable : String) : String :=
  "SELECT name FROM sqlite_master WHERE type='table' AND name='" ++ internalTable ++ "'"

/-- `isNew()` (lines 233-246): the model is new iff the catalog query returns no
row (`resolve(!row)`). -/
def isNew (env : DbEnv) (opts : SqliteModelOptions) : Except String Bool :=
  match env.dbGet (checkSql opts.internalTable) [] with
  | .error e => .error ("Error while checking for internal table (" ++ e ++ ")")
  | .ok row => .ok row.isNone

/-- The SQL script of `createInternalTable` (lines 251-271), with the template
literal's exact whitespace. -/
def internalTableSql (internalTable : String) : String :=
  "\n        CREATE TABLE IF NOT EXISTS " ++ internalTable ++
  " (\n          key text NOT NULL PRIMARY KEY,\n          value text NOT NULL\n        );\n\n        INSERT INTO " ++
  internalTable ++ " VALUES('version', '1');\n      "

/-- `createInternalTable()` (lines 251-271): `db.exec` of the script above. -/
def createInternalTable (env : DbEnv) (opts : SqliteModelOptions) : Except String Unit :=
  match env.dbExec (internalTableSql opts.internalTable) with
  | some e => .error ("Error while creating internal table (" ++ e ++ ")")
  | none => .ok ()

/-- One unit of `createModelTables` (lines 276-288): a unit that names an existing
file is read (comments stripped) and the contents executed; otherwise the unit is
executed directly as SQL. -/
def runCreateUnit (env : DbEnv) (fileOrSql : String) : Except String Unit :=
  if env.fileExists fileOrSql then
    match getSqlFromFile env fileOrSql with
    | .error e => .error e
    | .ok sql => execSql env sql
  else
    execSql env fileOrSql

/-- Modelled from the spec: `asyncSecuential` (imported from src/async-secuential.ts,
a repository file not among the sources; only its caller is).  Per the spec the
units "execute strictly in configured order, each waiting for the previous to
complete", and "any failure aborts subsequent units".  The second component is the
trace of items on which the action was started, in that order. -/
def asyncSecuentialT (f : α → Except String Unit) :
    List α → Except String Unit × List α
  | [] => (.ok (), [])
  | x :: xs =>
    match f x with
    | .error e => (.error e, [x])
    | .ok () =>
      let (r, t) := asyncSecuentialT f xs
      (r, x :: t)

/-- `createModelTables()` (lines 276-288): the configured units, sequentially. -/
def createModelTablesT (env : DbEnv) (opts : SqliteModelOptions) :
    Except String Unit × List String :=
  asyncSecuentialT (runCreateUnit env) opts.createDbSql

/-- Modelled from the spec: `asyncParallel` (imported from src/async-parallel.ts, a
repository file not among the sources; only its caller is).  Per the spec it is a
fan-out/join: the action is started on every item (order-independent), the join
resolves with all results and rejects if any item failed; when items fail, the
reported error is the first failing item's in list order. -/
def asyncParallel (f : α → Except String β) : List α → Except String (List β)
  | [] => .ok []
  | x :: xs =>
    match f x, asyncParallel f xs with
    | .error e, _ => .error e
    | .ok _, .error e => .error e
    | .ok b, .ok bs => .ok (b :: bs)

/-- `prepareStmts()` (lines 293-301): prepares every configured query via the
parallel combinator, storing each statement under its query name. -/
def prepareStmts (env : DbEnv) (opts : SqliteModelOptions) :
    Except String (List (String × SqliteStatement)) :=
  asyncParallel (fun q => (prepareStmt env q.2).map (fun s => (q.1, s))) opts.queries

/-- The `db.exec` calls issued while opening (for order/abort claims). -/
inductive InitEvent where
  | execInternal (sql : String)
  | execUnit (fileOrSql : String)
deriving DecidableEq, Repr

/-- `openDb()` (lines 208-226): open; if new, create the internal table then run the
init units; prepare the statements; any error rejects.  Alongside the settled
outcome it returns the ordered trace of `db.exec` work started during opening. -/
def openDbT (env : DbEnv) (opts : SqliteModelOptions) :
    Except String Unit × List InitEvent :=
  match env.openError with
  | some e => (.error ("sqlite: error opening the database: " ++ e), [])
  | none =>
    match isNew env opts with
    | .error e => (.error e, [])
    | .ok true =>
      match createInternalTable env opts with
      | .error e => (.error e, [.execInternal (internalTableSql opts.internalTable)])
      | .ok () =>
        let (r, t) := createModelTablesT env opts
        let evs := InitEvent.execInternal (internalTableSql opts.internalTable) ::
          t.map InitEvent.execUnit
        match r with
        | .error e => (.error e, evs)
        | .ok () => ((prepareStmts env opts).map (fun _ => ()), evs)
    | .ok false => ((prepareStmts env opts).map (fun _ => ()), [])

/-- The settled outcome of `this.ready = this.openDb().then(() => {})`
(constructor, lines 51-67). -/
def modelReady (env : DbEnv) (opts : SqliteModelOptions) : Except String Unit :=
  (openDbT env opts).1

/-- The prepared-statement mapping `this.stmt` after the ready promise settled
successfully (empty before/on failure, as constructed). -/
def modelStmts (env : DbEnv) (opts : SqliteModelOptions) : List SqliteStatement :=
  match prepareStmts env opts with
  | .ok l => l.map (fun p => p.2)
  | .error _ => []

/-- `isReady()` (lines 77-79): every call returns the one stored promise
`this.ready`; the call index is ignored by the source. -/
def isReady (env : DbEnv) (opts : SqliteModelOptions) (call : Nat) : Except String Unit :=
  modelReady env opts

/-- The version query of `getCurrentSchemaVersion` (lines 84-103). -/
def getVersionSql (internalTable : String) : String :=
  "SELECT value FROM " ++ internalTable ++ " WHERE key = ?"

/-- Decimal digit parsing for `jsNumber`. -/
def decDigitsAux : List Char → Nat → Option Nat
  | [], acc => some acc
  | c :: t, acc => if c.isDigit then decDigitsAux t (acc * 10 + (c.toNat - 48)) else none

/-- JavaScript `Number(s)` on the strings this wrapper stores: a canonical
(optionally negative) decimal integer literal parses to its value, the empty
string to `0`, anything else to `NaN` (returned as `none`; fractional literals and
exotic spellings are outside the strings this code ever stores or compares). -/
def jsNumber (s : String) : Option Int :=
  match s.data with
  | [] => some 0
  | '-' :: [] => none
  | '-' :: rest => (decDigitsAux rest 0).map (fun n => -(n : Int))
  | l => (decDigitsAux l 0).map (fun n => (n : Int))

/-- `getCurrentSchemaVersion()` (lines 84-103) after the readiness outcome `ready`:
waits on `this.ready`; a driver error rejects with the message plus the native
error; a missing row, `NaN`, or `0` are all falsy (`!currentVersion`) and reject
with the bare message; otherwise resolves with the parsed number. -/
def getCurrentSchemaVersionR (ready : Except String Unit) (env : DbEnv)
    (opts : SqliteModelOptions) : Except String Int :=
  match ready with
  | .error e => .error e
  | .ok () =>
    match env.dbGet (getVersionSql opts.internalTable) ["version"] with
    | .error e => .error ("Error while retrieving current schema version: " ++ e)
    | .ok none => .error "Error while retrieving current schema version"
    | .ok (some row) =>
      match jsNumber row.value with
      | none => .error "Error while retrieving current schema version"
      | some v =>
        if v = 0 then .error "Error while retrieving current schema version"
        else .ok v

/-- `getCurrentSchemaVersion()` with the model's own readiness promise. -/
def getCurrentSchemaVersion (env : DbEnv) (opts : SqliteModelOptions) :
    Except String Int :=
  getCurrentSchemaVersionR (modelReady env opts) env opts

/-- First rejection, in array order, of the `Promise.all` over the statement
finalizations in `closeDb` (the first finalize rejection settles the join). -/
def firstFinalizeError (env : DbEnv) : List SqliteStatement → Option String
  | [] => none
  | s :: rest =>
    match env.dbFinalize s.sql with
    | some e => some e
    | none => firstFinalizeError env rest

/-- `closeDb()` (lines 110-131) after the readiness outcome `ready`, over the
prepared statements `stmts`: waits on `this.ready`; starts `finalize()` on every
statement and joins them; only if all succeed is `db.close` called (the close error
is wrapped); a finalize rejection propagates unchanged and close is skipped.
Returns (settled outcome, whether `db.close` was called, the statements on which
`finalize()` was started, in order). -/
def closeDbR (ready : Except String Unit) (env : DbEnv) (stmts : List SqliteStatement) :
    Except String Unit × Bool × List String :=
  match ready with
  | .error e => (.error e, false, [])
  | .ok () =>
    let finalized := stmts.map (fun s => s.sql)
    match firstFinalizeError env stmts with
    | some e => (.error e, false, finalized)
    | none =>
      match env.dbCloseError with
      | some e => (.error ("Error closing the database: " ++ e), true, finalized)
      | none => (.ok (), true, finalized)

/-- `closeDb()` with the model's own readiness promise and statement mapping. -/
def closeDb (env : DbEnv) (opts : SqliteModelOptions) :
    Except String Unit × Bool × List String :=
  closeDbR (modelReady env opts) env (modelStmts env opts)

/-- `execSql` with the readiness outcome in scope: the source method does not
reference `this.ready`, so the argument is ignored exactly as the source ignores it
(it must be: `execSql` runs during initialization, before `ready` settles). -/
def execSqlR (ready : Except String Unit) (env : DbEnv) (sql : String) :
    Except String Unit :=
  execSql env sql

/-- `prepareStmt` with the readiness outcome in scope; ignored as in the source. -/
def prepareStmtR (ready : Except String Unit) (env : DbEnv) (sql : String) :
    Except String SqliteStatement :=
  prepareStmt env sql

/-- `getSqlFromFile` with the readiness outcome in scope; ignored as in the source. -/
def getSqlFromFileR (ready : Except String Unit) (env : DbEnv) (file : String) :
    Except String String :=
  getSqlFromFile env file

/-! ## Helper lemmas about the combinators -/

theorem leadsWith_self_append : ∀ (m post : List Char), leadsWith m (m ++ post) = true := by
  intro m
  induction m with
  | nil => intro post; rfl
  | cons c t ih =>
    intro post
    simp only [List.cons_append, leadsWith, beq_self_eq_true, Bool.true_and]
    exact ih post

theorem occursIn_sandwich : ∀ (pre m post : List Char),
    occursIn m (pre ++ (m ++ post)) = true := by
  intro pre m post
  induction pre with
  | nil =>
    cases hm : m with
    | nil =>
      cases post with
      | nil => rfl
      | cons c t => simp [occursIn, leadsWith]
    | cons c t =>
      simp only [List.nil_append, List.cons_append, occursIn, List.append_eq]
      have h := leadsWith_self_append (c :: t) post
      simp only [List.cons_append] at h
      simp [h]
  | cons c t ih =>
    simp only [List.cons_append, occursIn, List.append_eq]
    simp [ih]

theorem asyncParallel_ok {α β : Type} (f : α → Except String β) (g : α → β) :
    ∀ (xs : List α), (∀ x ∈ xs, f x = .ok (g x)) →
      asyncParallel f xs = .ok (xs.map g) := by
  intro xs
  induction xs with
  | nil => intro _; rfl
  | cons x rest ih =>
    intro h
    have hx : f x = .ok (g x) := h x (by simp)
    have hrest : asyncParallel f rest = .ok (rest.map g) :=
      ih (fun y hy => h y (by simp [hy]))
    simp [asyncParallel, hx, hrest]

theorem asyncParallel_err {α β : Type} (f : α → Except String β) :
    ∀ (pre : List α) (x : α) (post : List α) (e : String),
      (∀ y ∈ pre, ∃ b, f y = .ok b) → f x = .error e →
      asyncParallel f (pre ++ x :: post) = .error e := by
  intro pre
  induction pre with
  | nil =>
    intro x post e _ hx
    simp [asyncParallel, hx]
  | cons y rest ih =>
    intro x post e hpre hx
    obtain ⟨b, hb⟩ := hpre y (by simp)
    have := ih x post e (fun z hz => hpre z (by simp [hz])) hx
    simp [asyncParallel, hb, this]

theorem asyncSecuentialT_ok {α : Type} (f : α → Except String Unit) :
    ∀ (xs : List α), (∀ x ∈ xs, f x = .ok ()) →
      asyncSecuentialT f xs = (.ok (), xs) := by
  intro xs
  induction xs with
  | nil => intro _; rfl
  | cons x rest ih =>
    intro h
    have hx : f x = .ok () := h x (by simp)
    have hrest := ih (fun y hy => h y (by simp [hy]))
    simp [asyncSecuentialT, hx, hrest]

theorem asyncSecuentialT_err {α : Type} (f : α → Except String Unit) :
    ∀ (pre : List α) (u : α) (post : List α) (e : String),
      (∀ v ∈ pre, f v = .ok ()) → f u = .error e →
      asyncSecuentialT f (pre ++ u :: post) = (.error e, pre ++ [u]) := by
  intro pre
  induction pre with
  | nil =>
    intro u post e _ hu
    simp [asyncSecuentialT, hu]
  | cons v rest ih =>
    intro u post e hpre hu
    have hv : f v = .ok () := hpre v (by simp)
    have := ih u post e (fun z hz => hpre z (by simp [hz])) hu
    simp [asyncSecuentialT, hv, this]

theorem firstFinalizeError_none (env : DbEnv) :
    ∀ (stmts : List SqliteStatement), (∀ s ∈ stmts, env.dbFinalize s.sql = none) →
      firstFinalizeError env stmts = none := by
  intro stmts
  induction stmts with
  | nil => intro _; rfl
  | cons s rest ih =>
    intro h
    have hs : env.dbFinalize s.sql = none := h s (by simp)
    simp [firstFinalizeError, hs, ih (fun y hy => h y (by simp [hy]))]

theorem firstFinalizeError_first (env : DbEnv) :
    ∀ (pre : List SqliteStatement) (s : SqliteStatement) (post : List SqliteStatement)
      (e : String),
      (∀ v ∈ pre, env.dbFinalize v.sql = none) → env.dbFinalize s.sql = some e →
      firstFinalizeError env (pre ++ s :: post) = some e := by
  intro pre
  induction pre with
  | nil =>
    intro s post e _ hs
    simp [firstFinalizeError, hs]
  | cons v rest ih =>
    intro s post e hpre hs
    have hv : env.dbFinalize v.sql = none := hpre v (by simp)
    simp [firstFinalizeError, hv, ih s post e (fun z hz => hpre z (by simp [hz])) hs]

/-! ## Concrete environments (used by witnesses and counterexamples) -/

/-- A driver in which every native call succeeds, the catalog query finds the
bookkeeping table, and the version row is `('version', '1')`. -/
def envBase : DbEnv :=
  { openError := none
    dbGet := fun _ _ => .ok (some ⟨"version", "1"⟩)
    dbExec := fun _ => none
    dbPrepare := fun _ => none
    dbFinalize := fun _ => none
    dbCloseError := none
    fileExists := fun _ => false
    readFile := fun _ => .error "ENOENT" }

/-- A minimal configuration with the constructor's defaults
(`internalTable = '_model'`). -/
def optsBase : SqliteModelOptions :=
  { dbPath := "test.db", dbMode := 6, createDbSql := [], queries := [],
    verbose := false, internalTable := "_model" }

/-- A driver in which every `db.prepare` fails. -/
def envPrepFail : DbEnv :=
  { envBase with dbPrepare := fun _ => some "SQLITE_ERROR: syntax error" }

/-- A configuration with one query named `insert` whose SQL is `WRONG STATEMENT`. -/
def optsC1 : SqliteModelOptions :=
  { optsBase with queries := [("insert", "WRONG STATEMENT")] }

/-- C1 (counterexample): preparing the single query `insert: WRONG STATEMENT`
fails; readiness rejects with `Error preparing query WRONG STATEMENT
(SQLITE_ERROR: syntax error)`, which contains the SQL text but does not contain
the logical query name `insert` — contradicting the claim that the error includes
both the query name and the SQL. -/
theorem C1_counterexample :
    modelReady envPrepFail optsC1 =
      .error "Error preparing query WRONG STATEMENT (SQLITE_ERROR: syntax error)" ∧
    occursIn "insert".data
      "Error preparing query WRONG STATEMENT (SQLITE_ERROR: syntax error)".data = false ∧
    occursIn "WRONG STATEMENT".data
      "Error preparing query WRONG STATEMENT (SQLITE_ERROR: syntax error)".data = true := by
  refine ⟨by decide, by decide, by decide⟩

/-- C1 (amended): statement preparation prepares every configured query (on full
success the statement mapping holds one prepared statement per configured query,
under its name); if preparing a query fails, readiness rejects as a whole with
`Error preparing query ${sql} (${error})`, an error that includes the SQL text of
the failing query (but not its logical name). -/
theorem C1_prepare_all_and_failure :
    ∀ (env : DbEnv) (opts : SqliteModelOptions),
      ((∀ q ∈ opts.queries, env.dbPrepare q.2 = none) →
        prepareStmts env opts =
          .ok (opts.queries.map (fun q => (q.1, SqliteStatement.mk q.2)))) ∧
      (∀ (preQ postQ : List (String × String)) (name sql e : String)
        (row : InternalTableRow),
        opts.queries = preQ ++ (name, sql) :: postQ →
        (∀ q ∈ preQ, env.dbPrepare q.2 = none) →
        env.dbPrepare sql = some e →
        env.openError = none →
        env.dbGet (checkSql opts.internalTable) [] = .ok (some row) →
        modelReady env opts =
          .error ("Error preparing query " ++ sql ++ " (" ++ e ++ ")") ∧
        occursIn sql.data
          ("Error preparing query " ++ sql ++ " (" ++ e ++ ")").data = true) := by
  intro env opts
  constructor
  · intro hok
    unfold prepareStmts
    exact asyncParallel_ok (fun q => (prepareStmt env q.2).map (fun s => (q.1, s)))
      (fun q => (q.1, SqliteStatement.mk q.2)) opts.queries
      (fun q hq => by simp [prepareStmt, hok q hq, Except.map])
  · intro preQ postQ name sql e row hqs hpre hfail hopen hget
    have hstmts : prepareStmts env opts =
        .error ("Error preparing query " ++ sql ++ " (" ++ e ++ ")") := by
      unfold prepareStmts
      rw [hqs]
      exact asyncParallel_err _ preQ (name, sql) postQ _
        (fun y hy => ⟨(y.1, SqliteStatement.mk y.2),
          by simp [prepareStmt, hpre y hy, Except.map]⟩)
        (by simp [prepareStmt, hfail, Except.map])
    constructor
    · unfold modelReady openDbT
      rw [hopen]
      have hnew : isNew env opts = .ok false := by
        simp [isNew, hget]
      rw [hnew]
      simp [hstmts, Except.map]
    · have h := occursIn_sandwich "Error preparing query ".data sql.data
        (" (".data ++ (e.data ++ ")".data))
      simpa [String.data_append, List.append_assoc] using h

/-- C1 witness: the amended theorem applied to the concrete single-query
configuration, in the all-succeed and in the failing driver. -/
theorem C1_prepare_all_and_failure_witness :
    prepareStmts envBase optsC1 =
      .ok (optsC1.queries.map (fun q => (q.1, SqliteStatement.mk q.2))) ∧
    modelReady envPrepFail optsC1 =
      .error ("Error preparing query " ++ "WRONG STATEMENT" ++ " (" ++
        "SQLITE_ERROR: syntax error" ++ ")") := by
  constructor
  · exact (C1_prepare_all_and_failure envBase optsC1).1 (fun q _ => rfl)
  · exact ((C1_prepare_all_and_failure envPrepFail optsC1).2 [] [] "insert"
      "WRONG STATEMENT" "SQLITE_ERROR: syntax error" ⟨"version", "1"⟩ rfl
      (fun q hq => absurd hq (List.not_mem_nil q)) rfl rfl rfl).1

/-- The readiness-gating property the claim asserts of the whole listed public
surface: with a rejected readiness outcome, each operation settles with exactly
that rejection (in particular it cannot have touched the database, whose oracle
outcomes it would otherwise reflect). -/
def allPublicOpsGated : Prop :=
  (∀ (e : String) (env : DbEnv) (opts : SqliteModelOptions),
    getCurrentSchemaVersionR (.error e) env opts = .error e) ∧
  (∀ (e : String) (env : DbEnv) (stmts : List SqliteStatement),
    (closeDbR (.error e) env stmts).1 = .error e) ∧
  (∀ (e : String) (env : DbEnv) (sql : String),
    execSqlR (.error e) env sql = .error e) ∧
  (∀ (e : String) (env : DbEnv) (file : String),
    getSqlFromFileR (.error e) env file = .error e) ∧
  (∀ (e : String) (env : DbEnv) (sql : String),
    prepareStmtR (.error e) env sql = .error e)

/-- C2 (counterexample): `execSql` does not wait on the readiness promise: with a
rejected readiness outcome it still runs `db.exec` and resolves (here `.ok ()`
under a driver whose exec succeeds), so database access occurs although readiness
never resolved.  The claimed gating of the whole listed surface is false. -/
theorem C2_counterexample : ¬ allPublicOpsGated := by
  intro h
  have hx := h.2.2.1 "readiness rejected" envBase "SELECT 1"
  simp [execSqlR, execSql, envBase] at hx

/-- C2 (amended): of the listed surface, `getCurrentSchemaVersion` and `closeDb`
wait on the readiness signal (with readiness rejected they settle with that
rejection, start no finalization and never touch the handle), and `isReady`
returns the readiness promise itself; but the subclass-visible `execSql`,
`prepareStmt` and `getSqlFromFile` do not wait on readiness — they are the
primitives that run during the initialization sequence itself. -/
theorem C2_readiness_gating :
    (∀ (e : String) (env : DbEnv) (opts : SqliteModelOptions),
      getCurrentSchemaVersionR (.error e) env opts = .error e) ∧
    (∀ (e : String) (env : DbEnv) (stmts : List SqliteStatement),
      closeDbR (.error e) env stmts = (.error e, false, [])) ∧
    (∀ (env : DbEnv) (opts : SqliteModelOptions) (i : Nat),
      isReady env opts i = modelReady env opts) ∧
    (∃ (e : String) (env : DbEnv) (sql : String),
      execSqlR (.error e) env sql ≠ .error e) ∧
    (∃ (e : String) (env : DbEnv) (sql : String),
      prepareStmtR (.error e) env sql ≠ .error e) ∧
    (∃ (e : String) (env : DbEnv) (file : String),
      getSqlFromFileR (.error e) env file ≠ .error e) := by
  refine ⟨fun e env opts => rfl, fun e env stmts => rfl, fun env opts i => rfl,
    ⟨"boom", envBase, "SELECT 1", by simp [execSqlR, execSql, envBase]⟩,
    ⟨"boom", envBase, "SELECT 1", by simp [prepareStmtR, prepareStmt, envBase]⟩,
    ⟨"boom", envBase, "init.sql", by simp [getSqlFromFileR, getSqlFromFile, envBase]⟩⟩

/-- A driver whose catalog query finds the bookkeeping table but whose version
query fails natively (the table was dropped after opening). -/
def envNoVersionTable : DbEnv :=
  { envBase with
    dbGet := fun sql _ =>
      if sql = checkSql "_model" then Except.ok (some ⟨"name", "_model"⟩)
      else Except.error "SQLITE_ERROR: no such table: _model" }

/-- A driver whose version query succeeds but returns no row (the row was
deleted). -/
def envNoVersionRow : DbEnv :=
  { envBase with
    dbGet := fun sql _ =>
      if sql = checkSql "_model" then Except.ok (some ⟨"name", "_model"⟩)
      else Except.ok none }

/-- C3 (counterexample): the three failure causes do not produce one
indistinguishable condition: when the bookkeeping table is missing the native
error is appended to the message, while a missing row yields the bare message, so
the caller can distinguish the causes by comparing the rejection values. -/
theorem C3_counterexample :
    getCurrentSchemaVersion envNoVersionTable optsBase =
      .error
        "Error while retrieving current schema version: SQLITE_ERROR: no such table: _model" ∧
    getCurrentSchemaVersion envNoVersionRow optsBase =
      .error "Error while retrieving current schema version" ∧
    ("Error while retrieving current schema version: SQLITE_ERROR: no such table: _model"
      : String) ≠ "Error while retrieving current schema version" := by
  refine ⟨by decide, by decide, by decide⟩

/-- C3 (amended): `getCurrentSchemaVersion` resolves with the stored value parsed
as a number and rejects in exactly three cases, all with messages beginning
`Error while retrieving current schema version`: a native error from the version
query (table missing) appends the native error — and is therefore
distinguishable — while a missing row and a value that parses to `NaN` or `0`
both reject with the bare, indistinguishable message. -/
theorem C3_schema_version_cases :
    ∀ (env : DbEnv) (opts : SqliteModelOptions),
      modelReady env opts = .ok () →
      (∀ (e : String),
        env.dbGet (getVersionSql opts.internalTable) ["version"] = .error e →
        getCurrentSchemaVersion env opts =
          .error ("Error while retrieving current schema version: " ++ e)) ∧
      (env.dbGet (getVersionSql opts.internalTable) ["version"] = .ok none →
        getCurrentSchemaVersion env opts =
          .error "Error while retrieving current schema version") ∧
      (∀ (row : InternalTableRow),
        env.dbGet (getVersionSql opts.internalTable) ["version"] = .ok (some row) →
        (jsNumber row.value = none ∨ jsNumber row.value = some 0) →
        getCurrentSchemaVersion env opts =
          .error "Error while retrieving current schema version") ∧
      (∀ (row : InternalTableRow) (v : Int),
        env.dbGet (getVersionSql opts.internalTable) ["version"] = .ok (some row) →
        jsNumber row.value = some v → v ≠ 0 →
        getCurrentSchemaVersion env opts = .ok v) := by
  intro env opts hready
  unfold getCurrentSchemaVersion getCurrentSchemaVersionR
  rw [hready]
  refine ⟨fun e hget => by simp [hget], fun hget => by simp [hget], ?_, ?_⟩
  · intro row hget hval
    rcases hval with h | h <;> simp [hget, h]
  · intro row v hget hj hv
    simp [hget, hj, hv]

/-- C3 witness: under a healthy driver the stored `('version', '1')` row resolves
to the number `1`. -/
theorem C3_schema_version_cases_witness :
    getCurrentSchemaVersion envBase optsBase = .ok 1 :=
  (C3_schema_version_cases envBase optsBase rfl).2.2.2 ⟨"version", "1"⟩ 1 rfl
    (by decide) (by decide)

/-- A filesystem whose files hold a comment line written `--x` (marker not
followed by a space). -/
def envCommentFile : DbEnv :=
  { envBase with
    fileExists := fun _ => true
    readFile := fun _ => Except.ok "--x\nSELECT 1;\n" }

/-- C4 (counterexample): the regex only removes from `-- ` (marker plus space)
to a newline, so a line that begins with the bare marker `--x` is kept verbatim:
`getSqlFromFile` returns the input unchanged, contradicting "every line beginning
with the line-comment marker is removed". -/
theorem C4_counterexample :
    getSqlFromFile envCommentFile "init.sql" = .ok "--x\nSELECT 1;\n" ∧
    leadsWith "--".data "--x\nSELECT 1;\n".data = true ∧
    occursIn "--x".data "--x\nSELECT 1;\n".data = true := by
  refine ⟨by decide, by decide, by decide⟩

/-- C4 (amended): `getSqlFromFile` strips, in one left-to-right pass, exactly the
segments that begin with the marker followed by a space (`-- `) and extend
through the next newline, the newline included (so the line is joined with the
following one); content containing no such segment — including comment text
lacking the space after the marker or a terminating newline — is returned
unchanged. -/
theorem C4_strip_single_pass :
    ∀ (env : DbEnv) (file content : String) (pre mid post : List Char),
      env.readFile file = .ok content →
      (hasMatch content.data = false → getSqlFromFile env file = .ok content) ∧
      (content.data = pre ++ '-' :: '-' :: ' ' :: (mid ++ '\n' :: post) →
        hasMarker pre = false → mid.contains '\n' = false →
        getSqlFromFile env file =
          .ok (String.mk (pre ++ (stripComments (String.mk post)).data))) := by
  intro env file content pre mid post hread
  constructor
  · intro hnm
    have hs : stripComments content = content := by
      unfold stripComments
      rw [stripAux_id content.data.length content.data (Nat.le_refl _) hnm]
    simp only [getSqlFromFile, hread, hs]
  · intro hdec hpre hmid
    have hs : stripComments content = String.mk (pre ++ stripAux post.length post) := by
      unfold stripComments
      rw [hdec]
      congr 1
      exact stripAux_removes _ pre mid post (Nat.le_refl _) hpre hmid
    simp only [getSqlFromFile, hread, hs]
    rfl

/-- A filesystem whose files hold comment-free SQL. -/
def envSqlFile : DbEnv :=
  { envBase with
    fileExists := fun _ => true
    readFile := fun _ => Except.ok "SELECT * FROM test WHERE true;\n" }

/-- A filesystem whose files hold SQL with one `-- ` comment segment. -/
def envCommentedSql : DbEnv :=
  { envBase with
    fileExists := fun _ => true
    readFile := fun _ => Except.ok "CREATE TABLE t(v INTEGER); -- comment\nSELECT 1;\n" }

/-- C4 witness: the amended theorem applied to a comment-free file (returned
unchanged) and to a file with one comment segment (segment and its newline
removed, lines joined). -/
theorem C4_strip_single_pass_witness :
    getSqlFromFile envSqlFile "foobar.sql" = .ok "SELECT * FROM test WHERE true;\n" ∧
    getSqlFromFile envCommentedSql "create.sql" =
      .ok "CREATE TABLE t(v INTEGER); SELECT 1;\n" := by
  constructor
  · exact (C4_strip_single_pass envSqlFile "foobar.sql"
      "SELECT * FROM test WHERE true;\n" [] [] [] rfl).1 (by decide)
  · have h := (C4_strip_single_pass envCommentedSql "create.sql"
      "CREATE TABLE t(v INTEGER); -- comment\nSELECT 1;\n"
      "CREATE TABLE t(v INTEGER); ".data "comment".data "SELECT 1;\n".data rfl).2
      (by decide) (by decide) (by decide)
    exact h.trans (by decide)

/-- C5: the initialization SQL units run strictly in configured order — on full
success the started-units trace is exactly the configured list — and each unit
starts only after all earlier ones completed successfully: if a unit fails, the
trace is exactly the successful earlier units followed by the failing one (no
subsequent unit is started), and on a new database the readiness promise rejects
with that unit's error. -/
theorem C5_init_units_order :
    ∀ (env : DbEnv) (opts : SqliteModelOptions),
      ((∀ v ∈ opts.createDbSql, runCreateUnit env v = .ok ()) →
        createModelTablesT env opts = (.ok (), opts.createDbSql)) ∧
      (∀ (pre : List String) (u : String) (post : List String) (e : String),
        opts.createDbSql = pre ++ u :: post →
        (∀ v ∈ pre, runCreateUnit env v = .ok ()) →
        runCreateUnit env u = .error e →
        createModelTablesT env opts = (.error e, pre ++ [u]) ∧
        (env.openError = none →
          env.dbGet (checkSql opts.internalTable) [] = .ok none →
          env.dbExec (internalTableSql opts.internalTable) = none →
          modelReady env opts = .error e)) := by
  intro env opts
  constructor
  · intro hok
    unfold createModelTablesT
    exact asyncSecuentialT_ok _ opts.createDbSql hok
  · intro pre u post e hunits hpre hu
    have htab : createModelTablesT env opts = (.error e, pre ++ [u]) := by
      unfold createModelTablesT
      rw [hunits]
      exact asyncSecuentialT_err _ pre u post e hpre hu
    refine ⟨htab, ?_⟩
    intro hopen hget hexec
    unfold modelReady openDbT
    rw [hopen]
    have hnew : isNew env opts = .ok true := by
      simp [isNew, hget]
    rw [hnew]
    have hint : createInternalTable env opts = .ok () := by
      simp [createInternalTable, hexec]
    rw [hint]
    simp [htab]

/-- A driver for a new database: the catalog query finds nothing; two init units
are configured, the second of which fails. -/
def envUnitFail : DbEnv :=
  { envBase with
    dbGet := fun _ _ => Except.ok none
    dbExec := fun sql =>
      if sql = "BROKEN UNIT" then some "SQLITE_ERROR: near BROKEN" else none }

/-- A configuration with two inline init units, the second broken. -/
def optsUnits : SqliteModelOptions :=
  { optsBase with createDbSql := ["CREATE TABLE a(x);", "BROKEN UNIT", "CREATE TABLE b(x);"] }

/-- C5 witness: with all units succeeding the trace is the configured list in
order; with the second unit failing, only the first two are started and
readiness rejects with the wrapped exec error. -/
theorem C5_init_units_order_witness :
    createModelTablesT envBase
      { optsBase with createDbSql := ["CREATE TABLE a(x);", "CREATE TABLE b(x);"] } =
      (.ok (), ["CREATE TABLE a(x);", "CREATE TABLE b(x);"]) ∧
    createModelTablesT envUnitFail optsUnits =
      (.error ("Error while executing sql: " ++ "BROKEN UNIT" ++ " (" ++
        "SQLITE_ERROR: near BROKEN" ++ ")"),
        ["CREATE TABLE a(x);", "BROKEN UNIT"]) ∧
    modelReady envUnitFail optsUnits =
      .error ("Error while executing sql: " ++ "BROKEN UNIT" ++ " (" ++
        "SQLITE_ERROR: near BROKEN" ++ ")") := by
  refine ⟨?_, ?_, ?_⟩
  · exact (C5_init_units_order envBase _).1 (fun v hv => by
      fin_cases hv <;> decide)
  · exact ((C5_init_units_order envUnitFail optsUnits).2 ["CREATE TABLE a(x);"]
      "BROKEN UNIT" ["CREATE TABLE b(x);"] _ rfl
      (fun v hv => by fin_cases hv <;> decide) (by decide)).1
  · exact ((C5_init_units_order envUnitFail optsUnits).2 ["CREATE TABLE a(x);"]
      "BROKEN UNIT" ["CREATE TABLE b(x);"] _ rfl
      (fun v hv => by fin_cases hv <;> decide) (by decide)).2 rfl rfl rfl

set_option maxRecDepth 100000 in
/-- C6: when the catalog query finds no bookkeeping table (new database), the
first `db.exec` started while opening is the internal-table script, which creates
the table and seeds it with exactly one inserted row `('version', '1')` (for the
default table name: exactly one INSERT, whose literal values are
`('version', '1')`); when the catalog query finds the table, no `db.exec` at all
is started while opening — neither the table creation nor any init unit. -/
theorem C6_bookkeeping_creation :
    ∀ (env : DbEnv) (opts : SqliteModelOptions) (row : InternalTableRow),
      (env.openError = none →
        env.dbGet (checkSql opts.internalTable) [] = .ok (some row) →
        (openDbT env opts).2 = []) ∧
      (env.openError = none →
        env.dbGet (checkSql opts.internalTable) [] = .ok none →
        (openDbT env opts).2.head? =
          some (.execInternal (internalTableSql opts.internalTable))) ∧
      countOccur "INSERT".data (internalTableSql "_model").data = 1 ∧
      occursIn "INSERT INTO _model VALUES('version', '1');".data
        (internalTableSql "_model").data = true ∧
      occursIn "CREATE TABLE IF NOT EXISTS _model".data
        (internalTableSql "_model").data = true := by
  intro env opts row
  refine ⟨?_, ?_, ?_, ?_, ?_⟩
  · intro hopen hget
    unfold openDbT
    rw [hopen]
    have hnew : isNew env opts = .ok false := by simp [isNew, hget]
    rw [hnew]
  · intro hopen hget
    unfold openDbT
    rw [hopen]
    have hnew : isNew env opts = .ok true := by simp [isNew, hget]
    rw [hnew]
    cases hint : createInternalTable env opts with
    | error e => simp
    | ok _ =>
      obtain ⟨r, t⟩ := createModelTablesT env opts
      cases r <;> simp
  · decide
  · decide
  · decide

/-- A driver for an existing database (catalog row present). -/
def envExisting : DbEnv := envBase

/-- A driver for a new database in which everything succeeds. -/
def envNewDb : DbEnv :=
  { envBase with dbGet := fun _ _ => Except.ok none }

/-- C6 witness: the theorem applied to an existing database (empty exec trace)
and to a new one (the internal-table script is the first exec started). -/
theorem C6_bookkeeping_creation_witness :
    (openDbT envExisting optsBase).2 = [] ∧
    (openDbT envNewDb optsBase).2.head? =
      some (.execInternal (internalTableSql "_model")) := by
  constructor
  · exact (C6_bookkeeping_creation envExisting optsBase ⟨"version", "1"⟩).1 rfl rfl
  · exact (C6_bookkeeping_creation envNewDb optsBase ⟨"version", "1"⟩).2.1 rfl rfl

/-- C7: `closeDb` starts `finalize()` on every prepared statement (the finalize
trace lists them all, in mapping order); only when every finalization succeeded is
the native `db.close` called, and the promise then resolves (or rejects with the
wrapped close error); if a finalization fails, the promise rejects with exactly
that finalization's error and the native close is never attempted. -/
theorem C7_close_order :
    ∀ (env : DbEnv) (stmts : List SqliteStatement),
      ((∀ s ∈ stmts, env.dbFinalize s.sql = none) →
        (closeDbR (.ok ()) env stmts).2.1 = true ∧
        (closeDbR (.ok ()) env stmts).2.2 = stmts.map (fun s => s.sql) ∧
        (env.dbCloseError = none → (closeDbR (.ok ()) env stmts).1 = .ok ()) ∧
        (∀ e, env.dbCloseError = some e →
          (closeDbR (.ok ()) env stmts).1 =
            .error ("Error closing the database: " ++ e))) ∧
      (∀ (pre : List SqliteStatement) (s : SqliteStatement)
        (post : List SqliteStatement) (e : String),
        stmts = pre ++ s :: post →
        (∀ v ∈ pre, env.dbFinalize v.sql = none) →
        env.dbFinalize s.sql = some e →
        closeDbR (.ok ()) env stmts =
          (.error e, false, stmts.map (fun s => s.sql))) := by
  intro env stmts
  constructor
  · intro hok
    have hff : firstFinalizeError env stmts = none := firstFinalizeError_none env stmts hok
    refine ⟨?_, ?_, ?_, ?_⟩
    · unfold closeDbR
      rw [hff]
      cases env.dbCloseError <;> rfl
    · unfold closeDbR
      rw [hff]
      cases env.dbCloseError <;> rfl
    · intro hclose
      unfold closeDbR
      rw [hff, hclose]
    · intro e hclose
      unfold closeDbR
      rw [hff, hclose]
  · intro pre s post e hsplit hpre hs
    have hff : firstFinalizeError env stmts = some e := by
      rw [hsplit]
      exact firstFinalizeError_first env pre s post e hpre hs
    unfold closeDbR
    rw [hff]

/-- A driver in which finalizing the statement prepared from `BAD` fails. -/
def envFinalizeFail : DbEnv :=
  { envBase with dbFinalize := fun sql =>
      if sql = "BAD" then some "SQLITE_MISUSE: statement in use" else none }

/-- C7 witness: with two healthy statements the close is attempted and the call
resolves; with a failing finalization the call rejects with that error and the
close is never attempted, though finalize was started on every statement. -/
theorem C7_close_order_witness :
    (closeDbR (.ok ()) envBase [⟨"A"⟩, ⟨"B"⟩]).2.1 = true ∧
    (closeDbR (.ok ()) envBase [⟨"A"⟩, ⟨"B"⟩]).1 = .ok () ∧
    closeDbR (.ok ()) envFinalizeFail [⟨"A"⟩, ⟨"BAD"⟩, ⟨"C"⟩] =
      (.error "SQLITE_MISUSE: statement in use", false, ["A", "BAD", "C"]) := by
  refine ⟨?_, ?_, ?_⟩
  · exact ((C7_close_order envBase [⟨"A"⟩, ⟨"B"⟩]).1 (fun s hs => rfl)).1
  · exact ((C7_close_order envBase [⟨"A"⟩, ⟨"B"⟩]).1 (fun s hs => rfl)).2.2.1 rfl
  · have h := (C7_close_order envFinalizeFail [⟨"A"⟩, ⟨"BAD"⟩, ⟨"C"⟩]).2
      [⟨"A"⟩] ⟨"BAD"⟩ [⟨"C"⟩] "SQLITE_MISUSE: statement in use" rfl
      (fun v hv => by fin_cases hv <;> decide) (by decide)
    exact h.trans (by decide)

/-- Projection picking the row carried by a callback-invocation event. -/
def rowOfEvent : EachEvent → Option JsValue
  | .callbackInvoked r => some r
  | _ => none

theorem filterMap_rowOfEvent (rows : List JsValue) :
    (rows.map EachEvent.callbackInvoked).filterMap rowOfEvent = rows := by
  induction rows with
  | nil => rfl
  | cons r t ih => simp [rowOfEvent, ih]

/-- C8: on a successful execution the promisified `each` invokes the user
callback exactly once per result row — the callback events of the trace, in
order, carry exactly the result rows — invokes it zero times on an empty result
set, and the resolution event is the last event of the trace, i.e. the promise
resolves only after the callback ran for the final row. -/
theorem C8_each_per_row :
    ∀ (rows : List JsValue) (res : RunResult),
      promisifyStatementEach (rows.map Except.ok) (.ok res) =
        rows.map EachEvent.callbackInvoked ++ [EachEvent.resolved res] ∧
      (promisifyStatementEach (rows.map Except.ok) (.ok res)).filterMap rowOfEvent
        = rows ∧
      (promisifyStatementEach (rows.map Except.ok) (.ok res)).getLast? =
        some (.resolved res) ∧
      (rows = [] →
        promisifyStatementEach (rows.map Except.ok) (.ok res) =
          [EachEvent.resolved res]) := by
  intro rows res
  have h1 : promisifyStatementEach (rows.map Except.ok) (.ok res) =
      rows.map EachEvent.callbackInvoked ++ [EachEvent.resolved res] := by
    unfold promisifyStatementEach
    simp [List.map_map]
  refine ⟨h1, ?_, ?_, ?_⟩
  · rw [h1, List.filterMap_append, filterMap_rowOfEvent]
    simp [rowOfEvent]
  · rw [h1]
    simp
  · intro h
    subst h
    rfl

/-- C8 witness: the theorem applied to a zero-row result set (no callback,
resolved immediately) and to a two-row result set (one callback per row, in
order, resolution last). -/
theorem C8_each_per_row_witness :
    promisifyStatementEach (([] : List JsValue).map Except.ok) (.ok ⟨0, 0⟩) =
      [EachEvent.resolved ⟨0, 0⟩] ∧
    promisifyStatementEach ([JsValue.num 1, JsValue.num 2].map Except.ok) (.ok ⟨0, 2⟩) =
      [EachEvent.callbackInvoked (JsValue.num 1),
       EachEvent.callbackInvoked (JsValue.num 2), EachEvent.resolved ⟨0, 2⟩] := by
  constructor
  · exact (C8_each_per_row [] ⟨0, 0⟩).2.2.2 rfl
  · exact ((C8_each_per_row [JsValue.num 1, JsValue.num 2] ⟨0, 2⟩).1).trans (by decide)

/-- C9: `isReady` is idempotent — every call, whatever its index, returns the one
readiness promise created by the constructor, whose settled outcome is the single
outcome of the open-and-prepare sequence (settled exactly once: it is either one
rejection or one resolution). -/
theorem C9_isReady_idempotent :
    ∀ (env : DbEnv) (opts : SqliteModelOptions) (i j : Nat),
      isReady env opts i = isReady env opts j ∧
      isReady env opts i = modelReady env opts ∧
      ((∃ e, isReady env opts i = .error e) ∨ isReady env opts i = .ok ()) := by
  intro env opts i j
  refine ⟨rfl, rfl, ?_⟩
  cases h : modelReady env opts with
  | error e => exact Or.inl ⟨e, by simp [isReady, h]⟩
  | ok v =>
    right
    cases v
    simp [isReady, h]

/-- C10: for a successful driver callback of an operation configured with a
result field (`get` with `row`, `all` with `rows`), the resolved object carries
the field exactly when the value the driver passed is truthy (`if (field && r)`);
in particular a falsy row value (absent row, `0`, the empty string, …) yields an
object with no such key, while the `result` metadata is always present. -/
theorem C10_result_field_truthiness :
    ∀ (this_ : RunResult) (r : JsValue) (f : String),
      (f = "row" ∨ f = "rows") →
      ∃ d, promisifyStatementResult (some f) none this_ r = .ok d ∧
        d.result = this_ ∧
        d.extra.isSome = truthy r ∧
        (truthy r = true → d.extra = some (f, r)) ∧
        (truthy r = false → d.extra = none) := by
  intro this_ r f hf
  have hfne : f ≠ "" := by rcases hf with h | h <;> simp [h]
  cases ht : truthy r with
  | true =>
    refine ⟨⟨this_, some (f, r)⟩, ?_, rfl, by simp, fun _ => rfl, fun h => ?_⟩
    · simp [promisifyStatementResult, hfne, ht]
    · simp at h
  | false =>
    refine ⟨⟨this_, none⟩, ?_, rfl, by simp [ht], fun h => ?_, fun _ => rfl⟩
    · simp [promisifyStatementResult, hfne, ht]
    · simp at h

/-- C10 witness: a `get` whose driver row value is the falsy `0` resolves with no
`row` key; an `all` whose driver value is an array resolves with the `rows` key. -/
theorem C10_result_field_truthiness_witness :
    (∃ d, promisifyStatementResult (some "row") none ⟨5, 1⟩ (JsValue.num 0) = .ok d ∧
      d.result = ⟨5, 1⟩ ∧ d.extra.isSome = truthy (JsValue.num 0) ∧
      (truthy (JsValue.num 0) = true → d.extra = some ("row", JsValue.num 0)) ∧
      (truthy (JsValue.num 0) = false → d.extra = none)) ∧
    (∃ d, promisifyStatementResult (some "rows") none ⟨5, 1⟩ (JsValue.arr 0) = .ok d ∧
      d.result = ⟨5, 1⟩ ∧ d.extra.isSome = truthy (JsValue.arr 0) ∧
      (truthy (JsValue.arr 0) = true → d.extra = some ("rows", JsValue.arr 0)) ∧
      (truthy (JsValue.arr 0) = false → d.extra = none)) :=
  ⟨C10_result_field_truthiness ⟨5, 1⟩ (JsValue.num 0) "row" (Or.inl rfl),
   C10_result_field_truthiness ⟨5, 1⟩ (JsValue.arr 0) "rows" (Or.inr rfl)⟩

end SqliteModelVerif
